import Mathlib

/-!
Shallow embedding of the annotation pipeline in `03_annotate.py`
(`classify_content`, `score_one`, `annotate_file`).

CSV files are modelled as lists of lines; a cell is either a textual token
or a numeric token (`pd.read_csv` with `dtype int` accepts numeric tokens
and fails on textual ones).  The remote OpenAI call inside
`classify_content` is an opaque boundary, modelled as an oracle
`String → Option ClassifierOutput`: `none` stands for any exception raised
by the call (timeout, malformed output, JSON failure), `some out` for a
successfully parsed JSON object whose fields `score_one` reads with
`dict.get` and a default.
-/

/-- A CSV cell: a textual token or a numeric token. -/
inductive Cell where
  | str (s : String)
  | int (n : Int)
deriving DecidableEq, Repr

/-- One CSV line (a list of cells). -/
abbrev Line := List Cell

/-- A CSV file: its lines in file order. -/
abbrev CsvFile := List Line

/-- The `(model, run)` identity pair keying a record end to end. -/
abbrev Identity := String × Int

/-- One row of the input table, as produced by `pd.read_csv` with
`dtype={"model": str, "run": int, "response": str}`. -/
structure RawRecord where
  model : String
  run : Int
  response : String
deriving DecidableEq, Repr

def RawRecord.identity (r : RawRecord) : Identity := (r.model, r.run)

/-- The JSON object parsed from the function-call arguments.  Fields are
`Option` because `score_one` reads each key with `out.get(key, default)`:
a key may be absent from the parsed dict. -/
structure ClassifierOutput where
  coordination : Option Int
  coordination_justification : Option String
  optimal_move : Option Int
  optimal_move_justification : Option String
  convergence : Option Int
  convergence_justification : Option String
deriving DecidableEq, Repr

/-- The dict returned by `classify_content` on any exception from the
remote call: every flag `0`, every justification the empty string. -/
def fallbackOutput : ClassifierOutput :=
  ⟨some 0, some "", some 0, some "", some 0, some ""⟩

/-- `classify_content`: issue the remote call; on any exception return
`fallbackOutput` instead of raising. -/
def classify_content (oracle : String → Option ClassifierOutput)
    (response : String) : ClassifierOutput :=
  match oracle response with
  | some out => out
  | none => fallbackOutput

/-- One row of the output table, in column order. -/
structure Row where
  model : String
  run : Int
  coordination : Int
  coordination_justification : String
  coordination_justification_annotated_manual : String
  optimal_move : Int
  optimal_move_justification : String
  optimal_move_justification_annotated_manual : String
  convergence : Int
  convergence_justification : String
  convergence_justification_annotated_manual : String
deriving DecidableEq, Repr

def Row.identity (row : Row) : Identity := (row.model, row.run)

/-- `score_one`: classify one task and expand it to an output row.  The
three `_annotated_manual` columns are written as empty strings. -/
def score_one (oracle : String → Option ClassifierOutput)
    (task : RawRecord) : Row :=
  let out := classify_content oracle task.response
  { model := task.model
    run := task.run
    coordination := out.coordination.getD 0
    coordination_justification := out.coordination_justification.getD ""
    coordination_justification_annotated_manual := ""
    optimal_move := out.optimal_move.getD 0
    optimal_move_justification := out.optimal_move_justification.getD ""
    optimal_move_justification_annotated_manual := ""
    convergence := out.convergence.getD 0
    convergence_justification := out.convergence_justification.getD ""
    convergence_justification_annotated_manual := "" }

/-- Serialization of a `Row` by `csv.writer.writerow`. -/
def Row.toLine (row : Row) : Line :=
  [Cell.str row.model, Cell.int row.run,
   Cell.int row.coordination, Cell.str row.coordination_justification,
   Cell.str row.coordination_justification_annotated_manual,
   Cell.int row.optimal_move, Cell.str row.optimal_move_justification,
   Cell.str row.optimal_move_justification_annotated_manual,
   Cell.int row.convergence, Cell.str row.convergence_justification,
   Cell.str row.convergence_justification_annotated_manual]

/-- The header line `annotate_file` writes when the done-set is empty. -/
def HEADER : Line :=
  [Cell.str "model", Cell.str "run",
   Cell.str "coordination", Cell.str "coordination_justification",
   Cell.str "coordination_justification_annotated_manual",
   Cell.str "optimal_move", Cell.str "optimal_move_justification",
   Cell.str "optimal_move_justification_annotated_manual",
   Cell.str "convergence", Cell.str "convergence_justification",
   Cell.str "convergence_justification_annotated_manual"]

/-- Errors `pd.read_csv` (and subsequent column access) can raise. -/
inductive ReadError where
  | emptyData
  | missingColumn
  | badInt
  | tokenize
deriving DecidableEq, Repr

/-- `dtype str` coercion of a cell. -/
def coerceStr : Cell → String
  | .str s => s
  | .int n => toString n

/-- `dtype int` coercion of a cell: fails on a textual token. -/
def coerceInt : Cell → Option Int
  | .int n => some n
  | .str _ => none

/-- Read one data line of the output table: the cell in the `model`
column as a string and the cell in the `run` column as an int. -/
def readDataLine (im ir ncols : Nat) (l : Line) : Except ReadError Identity :=
  if l.length ≠ ncols then .error .tokenize
  else
    match l.get? im, l.get? ir with
    | some cm, some cr =>
      match coerceInt cr with
      | some r => .ok (coerceStr cm, r)
      | none => .error .badInt
    | _, _ => .error .tokenize

def readDataLines (im ir ncols : Nat) : List Line → Except ReadError (List Identity)
  | [] => .ok []
  | l :: ls =>
    match readDataLine im ir ncols l with
    | .error e => .error e
    | .ok id =>
      match readDataLines im ir ncols ls with
      | .error e => .error e
      | .ok ids => .ok (id :: ids)

/-- `pd.read_csv(output_path, dtype={"model": str, "run": int})` followed by
`zip(df_done.model, df_done.run)`: the first line is the header; it must
contain `model` and `run` columns; every later line must have a numeric
`run` cell.  No other column of the header is inspected. -/
def read_output (file : CsvFile) : Except ReadError (List Identity) :=
  match file with
  | [] => .error .emptyData
  | hdr :: rest =>
    match hdr.findIdx? (· = Cell.str "model"), hdr.findIdx? (· = Cell.str "run") with
    | some im, some ir => readDataLines im ir hdr.length rest
    | _, _ => .error .missingColumn

/-- Read one data line of the input table as a `RawRecord`. -/
def readInputLine (im ir it ncols : Nat) (l : Line) : Except ReadError RawRecord :=
  if l.length ≠ ncols then .error .tokenize
  else
    match l.get? im, l.get? ir, l.get? it with
    | some cm, some cr, some ct =>
      match coerceInt cr with
      | some r => .ok ⟨coerceStr cm, r, coerceStr ct⟩
      | none => .error .badInt
    | _, _, _ => .error .tokenize

def readInputLines (im ir it ncols : Nat) : List Line → Except ReadError (List RawRecord)
  | [] => .ok []
  | l :: ls =>
    match readInputLine im ir it ncols l with
    | .error e => .error e
    | .ok r =>
      match readInputLines im ir it ncols ls with
      | .error e => .error e
      | .ok rs => .ok (r :: rs)

/-- `pd.read_csv(input_path, dtype={"model": str, "run": int, "response": str})`
followed by `itertuples` access to `model`, `run`, `response`. -/
def read_input (file : CsvFile) : Except ReadError (List RawRecord) :=
  match file with
  | [] => .error .emptyData
  | hdr :: rest =>
    match hdr.findIdx? (· = Cell.str "model"), hdr.findIdx? (· = Cell.str "run"),
        hdr.findIdx? (· = Cell.str "response") with
    | some im, some ir, some it => readInputLines im ir it hdr.length rest
    | _, _, _ => .error .missingColumn

/-- The header lines written after the resume check: one header when the
loaded done-set is empty, none otherwise. -/
def headerLinesFor (doneIds : List Identity) : List Line :=
  if doneIds.isEmpty then [HEADER] else []

/-- The task list: source records whose identity is not in the done-set,
in source order. -/
def pendingTasks (records : List RawRecord) (doneIds : List Identity) :
    List RawRecord :=
  records.filter (fun r => !decide (r.identity ∈ doneIds))

/-- The rows one run produces: `pool.map(score_one, tasks)` yields results
in task-submission order. -/
def newRows (oracle : String → Option ClassifierOutput)
    (records : List RawRecord) (doneIds : List Identity) : List Row :=
  (pendingTasks records doneIds).map (score_one oracle)

/-- Outcome of one invocation of `annotate_file` on one input file. -/
inductive RunOutcome where
  | skipped
  | failed (e : ReadError)
  | done (file : CsvFile) (appended : List Row)
deriving DecidableEq, Repr

def RunOutcome.fileOf : RunOutcome → CsvFile
  | .done f _ => f
  | _ => []

def RunOutcome.appendedOf : RunOutcome → List Row
  | .done _ rows => rows
  | _ => []

/-- `annotate_file`: skip a missing input; read the input table; read the
done-set from the output table when that file exists (empty set
otherwise); write the header iff the done-set is empty; classify every
pending task and append the resulting rows.  `input = none` and
`output = none` model missing files. -/
def annotate_file (oracle : String → Option ClassifierOutput)
    (input output : Option CsvFile) : RunOutcome :=
  match input with
  | none => .skipped
  | some inFile =>
    match read_input inFile with
    | .error e => .failed e
    | .ok records =>
      match output with
      | none =>
        let rows := newRows oracle records []
        .done ([] ++ headerLinesFor [] ++ rows.map Row.toLine) rows
      | some content =>
        match read_output content with
        | .error e => .failed e
        | .ok doneIds =>
          let rows := newRows oracle records doneIds
          .done (content ++ headerLinesFor doneIds ++ rows.map Row.toLine) rows

/-- The result-collection loop over the remaining results: append each
result to the buffer, flush the buffer when it reaches `n` results, and
flush the final partial buffer after the loop. -/
def flushLoop (n : Nat) : List Row → List Row → List (List Row)
  | [], buf => if buf.isEmpty then [] else [buf.reverse]
  | r :: rs, buf =>
    let buf1 := r :: buf
    if n ≤ buf1.length then buf1.reverse :: flushLoop n rs []
    else flushLoop n rs buf1

/-- Split the result stream into the flushed batches: a flush happens each
time the buffer reaches `n` results, and once more for the final partial
batch. -/
def flushBatches (n : Nat) (rows : List Row) : List (List Row) :=
  flushLoop n rows []

/-- Durable file state when a run is killed after `k` batch flushes: the
header (flushed right after it is written) plus the first `k` batches; a
run that fails while reading leaves the file unchanged. -/
def runInterrupted (flushEvery : Nat) (oracle : String → Option ClassifierOutput)
    (input output : Option CsvFile) (k : Nat) : Option CsvFile :=
  match input with
  | none => output
  | some inFile =>
    match read_input inFile with
    | .error _ => output
    | .ok records =>
      match output with
      | none =>
        some ([] ++ headerLinesFor [] ++
          ((flushBatches flushEvery (newRows oracle records [])).take k).flatten.map Row.toLine)
      | some content =>
        match read_output content with
        | .error _ => output
        | .ok doneIds =>
          some (content ++ headerLinesFor doneIds ++
            ((flushBatches flushEvery (newRows oracle records doneIds)).take k).flatten.map Row.toLine)

/-- The identity a line carries when read back as a data row: textual
`model` cell, numeric `run` cell.  The header line carries none. -/
def lineIdentity (l : Line) : Option Identity :=
  match l.get? 0, l.get? 1 with
  | some (Cell.str m), some (Cell.int r) => some (m, r)
  | _, _ => none

def dataIdentities (file : CsvFile) : List Identity :=
  file.filterMap lineIdentity

/-- Sample oracle that always succeeds with all flags `1`. -/
def okOracle : String → Option ClassifierOutput :=
  fun _ => some ⟨some 1, some "yes", some 1, some "yes", some 1, some "yes"⟩

/-- Sample oracle whose remote call always raises. -/
def failOracle : String → Option ClassifierOutput :=
  fun _ => none

/-- Sample oracle whose remote call returns a payload that parses as JSON
but violates the declared schema: `coordination` is present with value `1`
while every other required key is missing. -/
def badSchemaOracle : String → Option ClassifierOutput :=
  fun _ => some ⟨some 1, none, none, none, none, none⟩

def INPUT_HEADER : Line := [Cell.str "model", Cell.str "run", Cell.str "response"]

/-- The 3-row source table of the concrete scenario. -/
def sampleInput : CsvFile :=
  [INPUT_HEADER,
   [Cell.str "A", Cell.int 1, Cell.str "t1"],
   [Cell.str "A", Cell.int 2, Cell.str "t2"],
   [Cell.str "B", Cell.int 1, Cell.str "t3"]]

def sampleRecords : List RawRecord :=
  [⟨"A", 1, "t1"⟩, ⟨"A", 2, "t2"⟩, ⟨"B", 1, "t3"⟩]

example : read_input sampleInput = .ok sampleRecords := by rfl

/-- The durable file after a sequence of interrupted runs, each with its
own flush threshold, oracle and kill point. -/
def foldInterruptions (input : Option CsvFile) :
    List ((String → Option ClassifierOutput) × Nat × Nat) → Option CsvFile →
    Option CsvFile
  | [], st => st
  | (o, n, k) :: rest, st =>
    foldInterruptions input rest (runInterrupted n o input st k)

/-- An existing output table whose header does not carry the configured
flag columns, only `model` and `run` plus a foreign column. -/
def mismatchedStore : CsvFile :=
  [[Cell.str "model", Cell.str "run", Cell.str "other_flag"],
   [Cell.str "A", Cell.int 1, Cell.int 0]]

/-- A source table with a duplicated `(model, run)` identity. -/
def dupInput : CsvFile :=
  [INPUT_HEADER,
   [Cell.str "A", Cell.int 1, Cell.str "x"],
   [Cell.str "A", Cell.int 1, Cell.str "y"]]

/-- An input table missing the `run` column. -/
def noRunColInput : CsvFile :=
  [[Cell.str "model", Cell.str "response"],
   [Cell.str "A", Cell.str "x"]]

/-- An input table whose `run` column holds a non-numeric token. -/
def badRunInput : CsvFile :=
  [INPUT_HEADER,
   [Cell.str "A", Cell.str "one", Cell.str "x"]]

/-- A successfully parsed classifier output satisfies the function-call
schema when every flag field it carries is `0` or `1` (the schema declares
the flags with `enum [0, 1]`). -/
def SchemaValid (out : ClassifierOutput) : Prop :=
  (∀ v, out.coordination = some v → v = 0 ∨ v = 1) ∧
  (∀ v, out.optimal_move = some v → v = 0 ∨ v = 1) ∧
  (∀ v, out.convergence = some v → v = 0 ∨ v = 1)

/-- Invariant of the durable output file across interrupted runs against a
source whose identities are `srcIds`: the file, if it exists, starts with
the header, every line is the header or a serialized row, and the data
identities are distinct and drawn from the source. -/
def StoreInv (srcIds : List Identity) : Option CsvFile → Prop
  | none => True
  | some content =>
    content.head? = some HEADER ∧
    (∀ l ∈ content, l = HEADER ∨ ∃ r : Row, l = Row.toLine r) ∧
    (dataIdentities content).Nodup ∧
    ∀ id ∈ dataIdentities content, id ∈ srcIds

/-- Number of header lines in a file. -/
def countHeaderLines (f : CsvFile) : Nat :=
  f.countP (fun l => decide (l = HEADER))

/-- `sampleInput` with the text of the already-annotated record `(A, 1)`
changed. -/
def sampleInputAltText : CsvFile :=
  [INPUT_HEADER,
   [Cell.str "A", Cell.int 1, Cell.str "CHANGED"],
   [Cell.str "A", Cell.int 2, Cell.str "t2"],
   [Cell.str "B", Cell.int 1, Cell.str "t3"]]

def sampleRecordsAltText : List RawRecord :=
  [⟨"A", 1, "CHANGED"⟩, ⟨"A", 2, "t2"⟩, ⟨"B", 1, "t3"⟩]

/-! ### Basic lemmas about rows, lines and reading -/

@[simp]
theorem score_one_identity (oracle : String → Option ClassifierOutput)
    (task : RawRecord) : (score_one oracle task).identity = task.identity := rfl

@[simp]
theorem lineIdentity_toLine (r : Row) :
    lineIdentity (Row.toLine r) = some r.identity := rfl

@[simp]
theorem lineIdentity_HEADER : lineIdentity HEADER = none := rfl

theorem toLine_ne_HEADER (r : Row) : Row.toLine r ≠ HEADER := by
  intro h
  have : lineIdentity (Row.toLine r) = lineIdentity HEADER := by rw [h]
  simp at this

@[simp]
theorem dataIdentities_nil : dataIdentities [] = [] := rfl

theorem dataIdentities_append (a b : CsvFile) :
    dataIdentities (a ++ b) = dataIdentities a ++ dataIdentities b :=
  List.filterMap_append a b lineIdentity

@[simp]
theorem dataIdentities_map_toLine (rows : List Row) :
    dataIdentities (rows.map Row.toLine) = rows.map Row.identity := by
  induction rows with
  | nil => rfl
  | cons r rs ih =>
    simp [dataIdentities, List.filterMap_cons] at ih ⊢
    exact ih

@[simp]
theorem dataIdentities_headerLinesFor (d : List Identity) :
    dataIdentities (headerLinesFor d) = [] := by
  unfold headerLinesFor
  split <;> rfl

@[simp]
theorem readDataLine_toLine (r : Row) :
    readDataLine 0 1 11 (Row.toLine r) = .ok r.identity := rfl

@[simp]
theorem readDataLine_HEADER :
    readDataLine 0 1 11 HEADER = .error .badInt := rfl

theorem read_output_header_cons (ls : List Line) :
    read_output (HEADER :: ls) = readDataLines 0 1 11 ls := rfl

theorem readDataLines_map_toLine (rows : List Row) :
    readDataLines 0 1 11 (rows.map Row.toLine) = .ok (rows.map Row.identity) := by
  induction rows with
  | nil => rfl
  | cons r rs ih => simp [readDataLines, ih]

theorem readDataLines_ok_eq (ls : List Line)
    (hsh : ∀ l ∈ ls, l = HEADER ∨ ∃ r : Row, l = Row.toLine r)
    (ids : List Identity) (h : readDataLines 0 1 11 ls = .ok ids) :
    ids = ls.filterMap lineIdentity := by
  induction ls generalizing ids with
  | nil =>
    simp [readDataLines] at h
    simp [h]
  | cons l ls ih =>
    rcases hsh l (List.mem_cons_self l ls) with hl | ⟨r, hl⟩
    · subst hl
      simp [readDataLines] at h
    · subst hl
      rw [readDataLines] at h
      simp only [readDataLine_toLine] at h
      cases hrest : readDataLines 0 1 11 ls with
      | error e => rw [hrest] at h; simp at h
      | ok ids' =>
        rw [hrest] at h
        simp at h
        subst h
        rw [List.filterMap_cons]
        simp [ih (fun l hm => hsh l (List.mem_cons_of_mem _ hm)) ids' hrest]

theorem read_output_good (content : CsvFile)
    (h0 : content.head? = some HEADER)
    (hsh : ∀ l ∈ content, l = HEADER ∨ ∃ r : Row, l = Row.toLine r)
    (ids : List Identity) (h : read_output content = .ok ids) :
    ids = dataIdentities content := by
  cases content with
  | nil => simp at h0
  | cons hdr rest =>
    simp at h0
    subst h0
    rw [read_output_header_cons] at h
    have := readDataLines_ok_eq rest (fun l hm => hsh l (List.mem_cons_of_mem _ hm)) ids h
    simp [dataIdentities, List.filterMap_cons, this]

/-! ### Lemmas about the buffer/flush discipline -/

theorem flushLoop_flatten (n : Nat) (rows : List Row) :
    ∀ buf, (flushLoop n rows buf).flatten = buf.reverse ++ rows := by
  induction rows with
  | nil =>
    intro buf
    rw [flushLoop]
    split
    · simp_all [List.isEmpty_iff]
    · simp
  | cons r rs ih =>
    intro buf
    rw [flushLoop]
    split
    · simp [ih []]
    · simp [ih (r :: buf)]

theorem flushBatches_flatten (n : Nat) (rows : List Row) :
    (flushBatches n rows).flatten = rows := by
  simpa using flushLoop_flatten n rows []

theorem flushLoop_take_flatten (n : Nat) (rows : List Row) :
    ∀ buf k, ∃ m, ((flushLoop n rows buf).take k).flatten =
      (buf.reverse ++ rows).take m := by
  induction rows with
  | nil =>
    intro buf k
    rw [flushLoop]
    split
    · exact ⟨0, by simp⟩
    · cases k with
      | zero => exact ⟨0, by simp⟩
      | succ k =>
        refine ⟨buf.reverse.length, ?_⟩
        simp [List.take_append]
  | cons r rs ih =>
    intro buf k
    rw [flushLoop]
    split
    · cases k with
      | zero => exact ⟨0, by simp⟩
      | succ k =>
        obtain ⟨m, hm⟩ := ih [] k
        refine ⟨(r :: buf).reverse.length + m, ?_⟩
        have : buf.reverse ++ r :: rs = (r :: buf).reverse ++ rs := by simp
        rw [this, List.take_append]
        simp only [List.take_cons, List.flatten_cons] at *
        simp [hm]
    · obtain ⟨m, hm⟩ := ih (r :: buf) k
      refine ⟨m, ?_⟩
      rw [hm]
      simp

theorem flushBatches_take_flatten (n : Nat) (rows : List Row) (k : Nat) :
    ∃ m, ((flushBatches n rows).take k).flatten = rows.take m := by
  simpa using flushLoop_take_flatten n rows [] k

/-! ### Lemmas about the work set -/

theorem pendingTasks_nil_done (records : List RawRecord) :
    pendingTasks records [] = records := by
  rw [pendingTasks, List.filter_eq_self]
  intro a _
  simp

theorem map_identity_pendingTasks (records : List RawRecord)
    (doneIds : List Identity) :
    (pendingTasks records doneIds).map RawRecord.identity =
      (records.map RawRecord.identity).filter (fun id => !decide (id ∈ doneIds)) := by
  induction records with
  | nil => rfl
  | cons r rs ih =>
    rw [pendingTasks] at ih ⊢
    rw [List.filter_cons, List.map_cons, List.filter_cons]
    by_cases h : r.identity ∈ doneIds
    · simp [h, ih]
    · simp [h, ih]

theorem map_identity_newRows (oracle : String → Option ClassifierOutput)
    (records : List RawRecord) (doneIds : List Identity) :
    (newRows oracle records doneIds).map Row.identity =
      (pendingTasks records doneIds).map RawRecord.identity := by
  rw [newRows, List.map_map]
  rfl

theorem mem_pendingTasks_not_done (records : List RawRecord)
    (doneIds : List Identity) (r : RawRecord)
    (h : r ∈ pendingTasks records doneIds) : r.identity ∉ doneIds := by
  rw [pendingTasks, List.mem_filter] at h
  simpa using h.2

theorem nodup_take {α : Type} {l : List α} (h : l.Nodup) (m : Nat) :
    (l.take m).Nodup :=
  h.sublist (List.take_sublist m l)

/-! ### Inversion of a completed run -/

theorem annotate_file_done_inv (oracle : String → Option ClassifierOutput)
    (input : CsvFile) (output : Option CsvFile) (file : CsvFile)
    (rows : List Row)
    (h : annotate_file oracle (some input) output = .done file rows) :
    ∃ records doneIds content,
      read_input input = .ok records ∧
      ((output = none ∧ content = [] ∧ doneIds = []) ∨
        (output = some content ∧ read_output content = .ok doneIds)) ∧
      rows = newRows oracle records doneIds ∧
      file = content ++ headerLinesFor doneIds ++ rows.map Row.toLine := by
  rw [annotate_file] at h
  split at h
  next e heq => simp at h
  next records heq =>
    split at h
    next =>
      simp only [RunOutcome.done.injEq] at h
      exact ⟨records, [], [], heq, Or.inl ⟨rfl, rfl, rfl⟩, h.2.symm,
        by rw [← h.1, ← h.2]⟩
    next content =>
      split at h
      next e heq2 => simp at h
      next doneIds heq2 =>
        simp only [RunOutcome.done.injEq] at h
        exact ⟨records, doneIds, content, heq, Or.inr ⟨rfl, heq2⟩, h.2.symm,
          by rw [← h.1, ← h.2]⟩

/-! ### The durable-store invariant across interrupted runs -/

theorem mem_headerLinesFor (d : List Identity) (l : Line)
    (h : l ∈ headerLinesFor d) : l = HEADER := by
  unfold headerLinesFor at h
  split at h <;> simp_all

theorem dataIdentities_run_file (content : CsvFile) (d : List Identity)
    (rows : List Row) :
    dataIdentities (content ++ headerLinesFor d ++ rows.map Row.toLine) =
      dataIdentities content ++ rows.map Row.identity := by
  rw [dataIdentities_append, dataIdentities_append,
    dataIdentities_headerLinesFor, dataIdentities_map_toLine]
  simp

theorem storeInv_runInterrupted (input : CsvFile) (records : List RawRecord)
    (hin : read_input input = .ok records)
    (hnd : (records.map RawRecord.identity).Nodup)
    (st : Option CsvFile)
    (hst : StoreInv (records.map RawRecord.identity) st)
    (n k : Nat) (oracle : String → Option ClassifierOutput) :
    StoreInv (records.map RawRecord.identity)
      (runInterrupted n oracle (some input) st k) := by
  simp only [runInterrupted, hin]
  cases st with
  | none =>
    obtain ⟨m, hm⟩ := flushBatches_take_flatten n (newRows oracle records []) k
    simp only [StoreInv, hm]
    refine ⟨by simp [headerLinesFor], ?_, ?_, ?_⟩
    · intro l hl
      simp only [List.nil_append] at hl
      rcases List.mem_append.1 hl with hl | hl
      · exact Or.inl (mem_headerLinesFor [] l hl)
      · rcases List.mem_map.1 hl with ⟨r, _, hr⟩
        exact Or.inr ⟨r, hr.symm⟩
    · rw [dataIdentities_run_file]
      simp only [dataIdentities_nil, List.nil_append]
      rw [List.map_take, map_identity_newRows, pendingTasks_nil_done]
      exact nodup_take hnd m
    · intro id hid
      rw [dataIdentities_run_file] at hid
      simp only [dataIdentities_nil, List.nil_append] at hid
      rw [List.map_take, map_identity_newRows, pendingTasks_nil_done] at hid
      exact List.mem_of_mem_take hid
  | some content =>
    simp only [StoreInv] at hst
    obtain ⟨h0, hsh, hnd2, hsub⟩ := hst
    cases hout : read_output content with
    | error e =>
      simp only [hout, StoreInv]
      exact ⟨h0, hsh, hnd2, hsub⟩
    | ok doneIds =>
      have hdone : doneIds = dataIdentities content :=
        read_output_good content h0 hsh doneIds hout
      obtain ⟨m, hm⟩ := flushBatches_take_flatten n (newRows oracle records doneIds) k
      simp only [hout, StoreInv, hm]
      obtain ⟨c, cs, rfl⟩ : ∃ c cs, content = c :: cs := by
        cases content with
        | nil => simp at h0
        | cons c cs => exact ⟨c, cs, rfl⟩
      have hc : c = HEADER := by simpa using h0
      subst hc
      refine ⟨by simp, ?_, ?_, ?_⟩
      · intro l hl
        rcases List.mem_append.1 hl with hl | hl
        · rcases List.mem_append.1 hl with hl | hl
          · exact hsh l hl
          · exact Or.inl (mem_headerLinesFor doneIds l hl)
        · rcases List.mem_map.1 hl with ⟨r, _, hr⟩
          exact Or.inr ⟨r, hr.symm⟩
      · rw [dataIdentities_run_file]
        refine List.Nodup.append hnd2 ?_ ?_
        · rw [List.map_take, map_identity_newRows, map_identity_pendingTasks]
          exact nodup_take (hnd.filter _) m
        · intro a ha hamem
          rw [List.map_take, map_identity_newRows,
            map_identity_pendingTasks] at hamem
          have hmem := List.mem_of_mem_take hamem
          rw [List.mem_filter] at hmem
          have hnot : a ∉ doneIds := by simpa using hmem.2
          exact hnot (hdone ▸ ha)
      · intro id hid
        rw [dataIdentities_run_file] at hid
        rcases List.mem_append.1 hid with hid | hid
        · exact hsub id hid
        · rw [List.map_take, map_identity_newRows,
            map_identity_pendingTasks] at hid
          have hmem := List.mem_of_mem_take hid
          exact (List.mem_filter.1 hmem).1

theorem storeInv_foldInterruptions (input : CsvFile) (records : List RawRecord)
    (hin : read_input input = .ok records)
    (hnd : (records.map RawRecord.identity).Nodup)
    (seq : List ((String → Option ClassifierOutput) × Nat × Nat)) :
    ∀ st, StoreInv (records.map RawRecord.identity) st →
      StoreInv (records.map RawRecord.identity)
        (foldInterruptions (some input) seq st) := by
  induction seq with
  | nil => intro st hst; exact hst
  | cons step rest ih =>
    intro st hst
    obtain ⟨o, n, k⟩ := step
    exact ih _ (storeInv_runInterrupted input records hin hnd st hst n k o)

/-- Number of occurrences of an identity in a list (`(m, r) in done` in
Python compares tuples by value). -/
def countId (id : Identity) (ids : List Identity) : Nat :=
  ids.countP (fun x => decide (x = id))

theorem countId_append (id : Identity) (a b : List Identity) :
    countId id (a ++ b) = countId id a + countId id b :=
  List.countP_append _ a b

theorem countId_eq_zero_of_not_mem {id : Identity} {l : List Identity}
    (hm : id ∉ l) : countId id l = 0 := by
  rw [countId, List.countP_eq_zero]
  intro a ha hp
  simp only [decide_eq_true_eq] at hp
  exact hm (hp ▸ ha)

theorem countId_eq_one_of_mem {id : Identity} {l : List Identity}
    (h : l.Nodup) (hm : id ∈ l) : countId id l = 1 := by
  induction l with
  | nil => simp at hm
  | cons a l ih =>
    rw [List.nodup_cons] at h
    simp only [countId] at ih ⊢
    rw [List.countP_cons]
    rcases List.mem_cons.1 hm with rfl | hmem
    · have h0 : List.countP (fun x => decide (x = id)) l = 0 := by
        simpa [countId] using countId_eq_zero_of_not_mem h.1
      simp [h0]
    · rw [ih h.2 hmem]
      have hne : a ≠ id := fun hc => h.1 (hc ▸ hmem)
      simp [hne]

theorem countId_filter {id : Identity} {p : Identity → Bool}
    (l : List Identity) (hp : p id = true) :
    countId id (l.filter p) = countId id l := by
  induction l with
  | nil => rfl
  | cons a l ih =>
    simp only [countId] at ih ⊢
    rw [List.filter_cons]
    by_cases hpa : p a = true
    · rw [if_pos hpa, List.countP_cons, List.countP_cons, ih]
    · rw [if_neg hpa, List.countP_cons, ih]
      have hne : ¬(a = id) := by
        intro hc
        subst hc
        exact hpa hp
      simp [hne]

theorem count_done_append_pending (records : List RawRecord)
    (doneIds : List Identity)
    (hnd : (records.map RawRecord.identity).Nodup) (hdnd : doneIds.Nodup)
    (id : Identity) (hid : id ∈ records.map RawRecord.identity) :
    countId id (doneIds ++ (pendingTasks records doneIds).map RawRecord.identity)
      = 1 := by
  rw [map_identity_pendingTasks, countId_append]
  by_cases h : id ∈ doneIds
  · rw [countId_eq_one_of_mem hdnd h]
    have hno : id ∉ (records.map RawRecord.identity).filter
        (fun x => !decide (x ∈ doneIds)) := by
      intro hmem
      have := (List.mem_filter.1 hmem).2
      simp at this
      exact this h
    rw [countId_eq_zero_of_not_mem hno]
  · rw [countId_eq_zero_of_not_mem h]
    have hp : (fun x => !decide (x ∈ doneIds)) id = true := by simp [h]
    rw [countId_filter _ hp, countId_eq_one_of_mem hnd hid]

/-- C1: for every identity in the Record Source (unique identities, as the
data model requires), after any sequence of interrupted runs followed by a
completed run, exactly one data row with that identity exists in the
output table; within the completed run no identity is dispatched twice and
every dispatched identity yields exactly one buffered result row. -/
theorem c1_exactly_once_coverage
    (input : CsvFile) (records : List RawRecord)
    (hin : read_input input = .ok records)
    (hnd : (records.map RawRecord.identity).Nodup)
    (seq : List ((String → Option ClassifierOutput) × Nat × Nat))
    (oracle : String → Option ClassifierOutput)
    (file : CsvFile) (rows : List Row)
    (hrun : annotate_file oracle (some input)
      (foldInterruptions (some input) seq none) = .done file rows) :
    (∀ id ∈ records.map RawRecord.identity,
      countId id (dataIdentities file) = 1) ∧
    (rows.map Row.identity).Nodup := by
  have hinv := storeInv_foldInterruptions input records hin hnd seq none trivial
  obtain ⟨records', doneIds, content, hin', hcase, hrows, hfile⟩ :=
    annotate_file_done_inv oracle input _ file rows hrun
  have hrec : records' = records := by
    rw [hin] at hin'
    exact (Except.ok.inj hin').symm
  rw [hrec] at hrows
  rcases hcase with ⟨hst, hcontent, hdids⟩ | ⟨hst, hout⟩
  · subst hcontent hdids
    constructor
    · intro id hid
      rw [hfile, dataIdentities_run_file, dataIdentities_nil, List.nil_append,
        hrows, map_identity_newRows, pendingTasks_nil_done]
      exact countId_eq_one_of_mem hnd hid
    · rw [hrows, map_identity_newRows, pendingTasks_nil_done]
      exact hnd
  · rw [hst] at hinv
    simp only [StoreInv] at hinv
    obtain ⟨h0, hsh, hnd2, _⟩ := hinv
    have hdone : doneIds = dataIdentities content :=
      read_output_good content h0 hsh doneIds hout
    constructor
    · intro id hid
      rw [hfile, dataIdentities_run_file, ← hdone, hrows, map_identity_newRows]
      exact count_done_append_pending records doneIds hnd (hdone ▸ hnd2) id hid
    · rw [hrows, map_identity_newRows, map_identity_pendingTasks]
      exact hnd.filter _

theorem c1_exactly_once_coverage_witness :
    countId ("A", 1) (dataIdentities (RunOutcome.fileOf (annotate_file okOracle
      (some sampleInput)
      (foldInterruptions (some sampleInput) [(failOracle, 2, 1)] none)))) = 1 ∧
    ((RunOutcome.appendedOf (annotate_file okOracle (some sampleInput)
      (foldInterruptions (some sampleInput) [(failOracle, 2, 1)] none))).map
      Row.identity).Nodup := by
  have h := c1_exactly_once_coverage sampleInput sampleRecords (by rfl)
    (by decide) [(failOracle, 2, 1)] okOracle
    (RunOutcome.fileOf (annotate_file okOracle (some sampleInput)
      (foldInterruptions (some sampleInput) [(failOracle, 2, 1)] none)))
    (RunOutcome.appendedOf (annotate_file okOracle (some sampleInput)
      (foldInterruptions (some sampleInput) [(failOracle, 2, 1)] none)))
    (by rfl)
  exact ⟨h.1 ("A", 1) (by decide), h.2⟩

/-! ### Idempotent resume -/

theorem pendingTasks_all_done (records : List RawRecord) :
    pendingTasks records (records.map RawRecord.identity) = [] := by
  rw [pendingTasks]
  refine List.filter_eq_nil_iff.mpr ?_
  intro r hr
  simp only [Bool.not_eq_true', decide_eq_false_iff_not, not_not]
  exact List.mem_map_of_mem RawRecord.identity hr

theorem first_run_file (oracle : String → Option ClassifierOutput)
    (input : CsvFile) (records : List RawRecord)
    (hin : read_input input = .ok records)
    (file : CsvFile) (rows : List Row)
    (h1 : annotate_file oracle (some input) none = .done file rows) :
    rows = newRows oracle records [] ∧
    file = HEADER :: rows.map Row.toLine ∧
    dataIdentities file = records.map RawRecord.identity ∧
    read_output file = .ok (records.map RawRecord.identity) := by
  obtain ⟨records', doneIds, content, hin', hcase, hrows, hfile⟩ :=
    annotate_file_done_inv oracle input none file rows h1
  have hrec : records' = records := by
    rw [hin] at hin'
    exact (Except.ok.inj hin').symm
  rw [hrec] at hrows
  rcases hcase with ⟨_, hcontent, hdids⟩ | ⟨hst, _⟩
  · subst hcontent hdids
    have hids : rows.map Row.identity = records.map RawRecord.identity := by
      rw [hrows, map_identity_newRows, pendingTasks_nil_done]
    have hfile' : file = HEADER :: rows.map Row.toLine := by
      rw [hfile]
      rfl
    refine ⟨hrows, hfile', ?_, ?_⟩
    · rw [hfile', dataIdentities, List.filterMap_cons]
      simp only [lineIdentity_HEADER]
      rw [show List.filterMap lineIdentity (rows.map Row.toLine) =
        dataIdentities (rows.map Row.toLine) from rfl,
        dataIdentities_map_toLine, hids]
    · rw [hfile', read_output_header_cons, readDataLines_map_toLine, hids]
  · simp at hst

/-- C2: a second run over an unchanged source finds an empty WorkSet,
processes zero items, and appends no rows; identities in the store are
never reprocessed regardless of the stored flag values (the first run's
oracle is arbitrary, so zero-flag fallback rows are covered). -/
theorem c2_idempotent_resume
    (oracle1 oracle2 : String → Option ClassifierOutput)
    (input : CsvFile) (records : List RawRecord)
    (hin : read_input input = .ok records)
    (file : CsvFile) (rows : List Row)
    (h1 : annotate_file oracle1 (some input) none = .done file rows) :
    pendingTasks records (dataIdentities file) = [] ∧
    ∃ file2, annotate_file oracle2 (some input) (some file) = .done file2 [] ∧
      dataIdentities file2 = dataIdentities file := by
  obtain ⟨hrows, hfile, hdata, hro⟩ :=
    first_run_file oracle1 input records hin file rows h1
  have hpend : pendingTasks records (records.map RawRecord.identity) = [] :=
    pendingTasks_all_done records
  constructor
  · rw [hdata]
    exact hpend
  · refine ⟨file ++ headerLinesFor (records.map RawRecord.identity), ?_, ?_⟩
    · simp only [annotate_file, hin, hro, newRows, hpend, List.map_nil,
        List.append_nil]
    · rw [dataIdentities_append]
      simp

theorem c2_idempotent_resume_witness :
    pendingTasks sampleRecords (dataIdentities (RunOutcome.fileOf
      (annotate_file okOracle (some sampleInput) none))) = [] ∧
    ∃ file2, annotate_file failOracle (some sampleInput)
      (some (RunOutcome.fileOf (annotate_file okOracle (some sampleInput) none)))
      = .done file2 [] ∧
      dataIdentities file2 = dataIdentities (RunOutcome.fileOf
        (annotate_file okOracle (some sampleInput) none)) :=
  c2_idempotent_resume okOracle failOracle sampleInput sampleRecords (by rfl)
    (RunOutcome.fileOf (annotate_file okOracle (some sampleInput) none))
    (RunOutcome.appendedOf (annotate_file okOracle (some sampleInput) none))
    (by rfl)

/-- C3 counterexample: a remote result that parses but violates the schema
(`coordination = 1` present, every other required key missing) is not
replaced by the deterministic all-zero fallback: `classify_content` passes
it through unchanged and the committed rows carry flag value `1`, refuting
the claim's schema-violation case. -/
theorem c3_schema_violation_counterexample :
    classify_content badSchemaOracle "t1" ≠ fallbackOutput ∧
    (score_one badSchemaOracle ⟨"A", 1, "t1"⟩).coordination = 1 ∧
    (RunOutcome.appendedOf
      (annotate_file badSchemaOracle (some sampleInput) none)).map
      Row.coordination = [1, 1, 1] :=
  ⟨by decide, rfl, rfl⟩

/-- C3 amended: only exceptions raised by the remote call (timeout,
network failure, unparseable output) are recovered by the deterministic
fallback — every flag `0`, every justification empty; a payload that
parses but violates the schema is passed through, each field read with a
per-key default (`0` / empty string) only where the key is missing.  In
both cases the committed row for the item lands in the output table,
marks the identity done, and is never retried on resume. -/
theorem c3_amended_classifier_fallback
    (oracle : String → Option ClassifierOutput)
    (input : CsvFile) (records : List RawRecord) (r : RawRecord)
    (hin : read_input input = .ok records) (hr : r ∈ records)
    (file : CsvFile) (rows : List Row)
    (h1 : annotate_file oracle (some input) none = .done file rows) :
    (oracle r.response = none →
      classify_content oracle r.response = fallbackOutput ∧
      (score_one oracle r).coordination = 0 ∧
      (score_one oracle r).coordination_justification = "" ∧
      (score_one oracle r).optimal_move = 0 ∧
      (score_one oracle r).optimal_move_justification = "" ∧
      (score_one oracle r).convergence = 0 ∧
      (score_one oracle r).convergence_justification = "") ∧
    (∀ out, oracle r.response = some out →
      classify_content oracle r.response = out ∧
      (score_one oracle r).coordination = out.coordination.getD 0 ∧
      (score_one oracle r).coordination_justification =
        out.coordination_justification.getD "" ∧
      (score_one oracle r).optimal_move = out.optimal_move.getD 0 ∧
      (score_one oracle r).optimal_move_justification =
        out.optimal_move_justification.getD "" ∧
      (score_one oracle r).convergence = out.convergence.getD 0 ∧
      (score_one oracle r).convergence_justification =
        out.convergence_justification.getD "") ∧
    score_one oracle r ∈ rows ∧
    r.identity ∈ dataIdentities file ∧
    (∀ oracle2 file2 rows2,
      annotate_file oracle2 (some input) (some file) = .done file2 rows2 →
      ∀ row ∈ rows2, row.identity ≠ r.identity) := by
  obtain ⟨hrows, _, hdata, hro⟩ :=
    first_run_file oracle input records hin file rows h1
  refine ⟨?_, ?_, ?_, ?_, ?_⟩
  · intro hfail
    have hcc : classify_content oracle r.response = fallbackOutput := by
      rw [classify_content, hfail]
    exact ⟨hcc, by simp [score_one, hcc, fallbackOutput],
      by simp [score_one, hcc, fallbackOutput],
      by simp [score_one, hcc, fallbackOutput],
      by simp [score_one, hcc, fallbackOutput],
      by simp [score_one, hcc, fallbackOutput],
      by simp [score_one, hcc, fallbackOutput]⟩
  · intro out hout
    have hcc : classify_content oracle r.response = out := by
      rw [classify_content, hout]
    exact ⟨hcc, by simp [score_one, hcc], by simp [score_one, hcc],
      by simp [score_one, hcc], by simp [score_one, hcc],
      by simp [score_one, hcc], by simp [score_one, hcc]⟩
  · rw [hrows, newRows, pendingTasks_nil_done]
    exact List.mem_map_of_mem _ hr
  · rw [hdata]
    exact List.mem_map_of_mem _ hr
  · intro oracle2 file2 rows2 h2 row hrow hcontra
    obtain ⟨records'', doneIds, content', hin'', hcase2, hrows2, _⟩ :=
      annotate_file_done_inv oracle2 input (some file) file2 rows2 h2
    have hrec2 : records'' = records := by
      rw [hin] at hin''
      exact (Except.ok.inj hin'').symm
    rw [hrec2] at hrows2
    rcases hcase2 with ⟨hst, _, _⟩ | ⟨hst, hout⟩
    · simp at hst
    · have hcf : content' = file := (Option.some.inj hst).symm
      rw [hcf, hro] at hout
      have hdids : doneIds = records.map RawRecord.identity :=
        (Except.ok.inj hout).symm
      have hmem : row.identity ∈ (newRows oracle2 records doneIds).map
          Row.identity := List.mem_map_of_mem _ (hrows2 ▸ hrow)
      rw [map_identity_newRows, map_identity_pendingTasks] at hmem
      have hnot := (List.mem_filter.1 hmem).2
      simp only [Bool.not_eq_true', decide_eq_false_iff_not] at hnot
      apply hnot
      rw [hcontra, hdids]
      exact List.mem_map_of_mem _ hr

theorem c3_amended_classifier_fallback_witness :
    classify_content failOracle "t1" = fallbackOutput ∧
    (score_one failOracle ⟨"A", 1, "t1"⟩).coordination = 0 ∧
    classify_content badSchemaOracle "t1" =
      (⟨some 1, none, none, none, none, none⟩ : ClassifierOutput) ∧
    (score_one badSchemaOracle ⟨"A", 1, "t1"⟩).coordination =
      ((⟨some 1, none, none, none, none, none⟩ :
        ClassifierOutput).coordination).getD 0 ∧
    score_one failOracle ⟨"A", 1, "t1"⟩ ∈
      RunOutcome.appendedOf (annotate_file failOracle (some sampleInput) none) ∧
    ("A", (1 : Int)) ∈ dataIdentities (RunOutcome.fileOf
      (annotate_file failOracle (some sampleInput) none)) := by
  obtain ⟨hnone, _, hmem, hid, _⟩ :=
    c3_amended_classifier_fallback failOracle sampleInput sampleRecords
      ⟨"A", 1, "t1"⟩ (by rfl) (by decide)
      (RunOutcome.fileOf (annotate_file failOracle (some sampleInput) none))
      (RunOutcome.appendedOf (annotate_file failOracle (some sampleInput) none))
      (by rfl)
  obtain ⟨ha, hb, _⟩ := hnone rfl
  obtain ⟨_, hpass, _, _, _⟩ :=
    c3_amended_classifier_fallback badSchemaOracle sampleInput sampleRecords
      ⟨"A", 1, "t1"⟩ (by rfl) (by decide)
      (RunOutcome.fileOf
        (annotate_file badSchemaOracle (some sampleInput) none))
      (RunOutcome.appendedOf
        (annotate_file badSchemaOracle (some sampleInput) none))
      (by rfl)
  obtain ⟨hc, hd, _⟩ := hpass ⟨some 1, none, none, none, none, none⟩ rfl
  exact ⟨ha, hb, hc, hd, hmem, hid⟩

/-! ### Batch commit: the concrete scenario -/

/-- C4: with flush threshold 2 and a 3-row source under an
always-succeeding classifier, the first flush carries 2 results, the
final unconditional flush carries the 1 remaining result, every result is
durable, the output table holds exactly the 3 identities with every flag
`1`, and a second run appends zero rows. -/
theorem c4_batch_commit_concrete :
    (flushBatches 2 (newRows okOracle sampleRecords [])).map List.length
      = [2, 1] ∧
    (flushBatches 2 (newRows okOracle sampleRecords [])).flatten
      = newRows okOracle sampleRecords [] ∧
    dataIdentities (RunOutcome.fileOf
      (annotate_file okOracle (some sampleInput) none))
      = [("A", 1), ("A", 2), ("B", 1)] ∧
    (RunOutcome.appendedOf (annotate_file okOracle (some sampleInput) none)).map
      Row.coordination = [1, 1, 1] ∧
    (RunOutcome.appendedOf (annotate_file okOracle (some sampleInput) none)).map
      Row.optimal_move = [1, 1, 1] ∧
    (RunOutcome.appendedOf (annotate_file okOracle (some sampleInput) none)).map
      Row.convergence = [1, 1, 1] ∧
    RunOutcome.appendedOf (annotate_file okOracle (some sampleInput)
      (some (RunOutcome.fileOf (annotate_file okOracle (some sampleInput) none))))
      = [] :=
  ⟨rfl, rfl, rfl, rfl, rfl, rfl, rfl⟩

/-! ### Schema mismatch is not detected -/

/-- C5 counterexample: an existing output table whose header does not
match the configured flag set (it has columns `model, run, other_flag`)
is accepted: the run does not fail, dispatch proceeds, and two rows are
appended to the mismatched store. -/
theorem c5_schema_mismatch_counterexample :
    read_output mismatchedStore = .ok [("A", 1)] ∧
    annotate_file okOracle (some sampleInput) (some mismatchedStore) =
      .done
        (RunOutcome.fileOf
          (annotate_file okOracle (some sampleInput) (some mismatchedStore)))
        (RunOutcome.appendedOf
          (annotate_file okOracle (some sampleInput) (some mismatchedStore))) ∧
    (RunOutcome.appendedOf
      (annotate_file okOracle (some sampleInput) (some mismatchedStore))).length
      = 2 :=
  ⟨rfl, rfl, rfl⟩

/-- C5 amended: the pipeline performs no header/schema validation of an
existing output table beyond using its `model` and `run` columns: a store
whose header differs from the configured flag set is accepted and
appended to; when no prior output exists the done-set is empty and every
source record is processed. -/
theorem c5_amended_no_schema_validation
    (oracle : String → Option ClassifierOutput)
    (input : CsvFile) (records : List RawRecord)
    (hin : read_input input = .ok records) :
    RunOutcome.appendedOf (annotate_file oracle (some input) none) =
      newRows oracle records [] ∧
    read_output mismatchedStore = .ok [("A", 1)] := by
  constructor
  · simp only [annotate_file, hin]
    rfl
  · rfl

theorem c5_amended_no_schema_validation_witness :
    RunOutcome.appendedOf (annotate_file okOracle (some sampleInput) none) =
      newRows okOracle sampleRecords [] ∧
    read_output mismatchedStore = .ok [("A", 1)] :=
  c5_amended_no_schema_validation okOracle sampleInput sampleRecords (by rfl)

/-! ### Source-load failures -/

/-- C6 counterexample: a missing input path is skipped with a warning, not
treated as a fatal error, and a source with a duplicated `(model, run)`
identity is loaded without any uniqueness check — both duplicates are
dispatched and appended. -/
theorem c6_source_unreadable_counterexample :
    annotate_file okOracle none none = .skipped ∧
    (RunOutcome.appendedOf (annotate_file okOracle (some dupInput) none)).map
      Row.identity = [("A", 1), ("A", 1)] ∧
    countId ("A", 1) (dataIdentities (RunOutcome.fileOf
      (annotate_file okOracle (some dupInput) none))) = 2 :=
  ⟨rfl, rfl, rfl⟩

/-- C6 amended: a missing input path causes the file to be skipped (no
error); a malformed input table — missing required columns or a
non-numeric `run` value — raises an uncaught read error that aborts the
run before any work is dispatched; duplicate identities are not detected
and are all dispatched. -/
theorem c6_amended_load_errors
    (oracle : String → Option ClassifierOutput) (output : Option CsvFile)
    (f : CsvFile) (e : ReadError) (h : read_input f = .error e) :
    annotate_file oracle (some f) output = .failed e ∧
    read_input noRunColInput = .error .missingColumn ∧
    read_input badRunInput = .error .badInt ∧
    annotate_file oracle none output = .skipped := by
  refine ⟨?_, rfl, rfl, rfl⟩
  simp only [annotate_file, h]

theorem c6_amended_load_errors_witness :
    annotate_file okOracle (some noRunColInput) none = .failed .missingColumn ∧
    read_input noRunColInput = .error .missingColumn ∧
    read_input badRunInput = .error .badInt ∧
    annotate_file okOracle none none = .skipped :=
  c6_amended_load_errors okOracle none noRunColInput .missingColumn (by rfl)

/-! ### Header writing -/

theorem countHeaderLines_map_toLine (rows : List Row) :
    countHeaderLines (rows.map Row.toLine) = 0 := by
  rw [countHeaderLines, List.countP_eq_zero]
  intro l hl
  rcases List.mem_map.1 hl with ⟨r, _, hr⟩
  simp only [decide_eq_true_eq]
  exact hr ▸ toLine_ne_HEADER r

/-- C7 counterexample: resuming against a store that exists and contains
the header but no data rows writes a second header: the resulting file
holds two header lines, even though the store previously existed. -/
theorem c7_duplicate_header_counterexample :
    countHeaderLines (RunOutcome.fileOf
      (annotate_file okOracle (some sampleInput) (some [HEADER]))) = 2 :=
  rfl

/-- C7 amended: the header is written exactly once per run, before that
run's data rows, precisely when the loaded done-set is empty: a fresh
store gets exactly one header, a store with at least one data row gets no
new header, and a store whose done-set is empty (for example a
header-only store) gets one more header line. -/
theorem c7_amended_header_iff_empty_done
    (oracle : String → Option ClassifierOutput)
    (input : CsvFile) (records : List RawRecord)
    (hin : read_input input = .ok records)
    (content : CsvFile) (doneIds : List Identity)
    (hout : read_output content = .ok doneIds) :
    RunOutcome.fileOf (annotate_file oracle (some input) none) =
      HEADER :: (newRows oracle records []).map Row.toLine ∧
    countHeaderLines (RunOutcome.fileOf
      (annotate_file oracle (some input) none)) = 1 ∧
    (doneIds ≠ [] →
      RunOutcome.fileOf (annotate_file oracle (some input) (some content)) =
        content ++ (newRows oracle records doneIds).map Row.toLine) ∧
    (doneIds = [] →
      RunOutcome.fileOf (annotate_file oracle (some input) (some content)) =
        content ++ [HEADER] ++ (newRows oracle records doneIds).map Row.toLine) := by
  have hfresh : RunOutcome.fileOf (annotate_file oracle (some input) none) =
      HEADER :: (newRows oracle records []).map Row.toLine := by
    simp only [annotate_file, hin]
    rfl
  refine ⟨hfresh, ?_, ?_, ?_⟩
  · rw [hfresh, countHeaderLines, List.countP_cons]
    rw [show List.countP (fun l => decide (l = HEADER))
      ((newRows oracle records []).map Row.toLine) =
      countHeaderLines ((newRows oracle records []).map Row.toLine) from rfl]
    rw [countHeaderLines_map_toLine]
    simp
  · intro hne
    simp only [annotate_file, hin, hout, RunOutcome.fileOf]
    rw [headerLinesFor, if_neg (by simpa [List.isEmpty_iff] using hne)]
    simp
  · intro heq
    subst heq
    simp only [annotate_file, hin, hout, RunOutcome.fileOf]
    rfl

theorem c7_amended_header_iff_empty_done_witness :
    RunOutcome.fileOf (annotate_file okOracle (some sampleInput) none) =
      HEADER :: (newRows okOracle sampleRecords []).map Row.toLine ∧
    countHeaderLines (RunOutcome.fileOf
      (annotate_file okOracle (some sampleInput) none)) = 1 ∧
    ([("A", (1 : Int))] ≠ [] →
      RunOutcome.fileOf (annotate_file okOracle (some sampleInput)
        (some mismatchedStore)) =
        mismatchedStore ++
          (newRows okOracle sampleRecords [("A", 1)]).map Row.toLine) ∧
    ([("A", (1 : Int))] = [] →
      RunOutcome.fileOf (annotate_file okOracle (some sampleInput)
        (some mismatchedStore)) =
        mismatchedStore ++ [HEADER] ++
          (newRows okOracle sampleRecords [("A", 1)]).map Row.toLine) :=
  c7_amended_header_iff_empty_done okOracle sampleInput sampleRecords (by rfl)
    mismatchedStore [("A", 1)] (by rfl)

/-! ### Row field ranges -/

theorem score_one_flags (oracle : String → Option ClassifierOutput)
    (hval : ∀ s out, oracle s = some out → SchemaValid out)
    (task : RawRecord) :
    ((score_one oracle task).coordination = 0 ∨
      (score_one oracle task).coordination = 1) ∧
    ((score_one oracle task).optimal_move = 0 ∨
      (score_one oracle task).optimal_move = 1) ∧
    ((score_one oracle task).convergence = 0 ∨
      (score_one oracle task).convergence = 1) := by
  unfold score_one classify_content
  cases ho : oracle task.response with
  | none => simp [fallbackOutput]
  | some out =>
    dsimp only
    obtain ⟨h1, h2, h3⟩ := hval _ _ ho
    refine ⟨?_, ?_, ?_⟩
    · cases hc : out.coordination with
      | none => simp
      | some v => simpa using h1 v hc
    · cases hc : out.optimal_move with
      | none => simp
      | some v => simpa using h2 v hc
    · cases hc : out.convergence with
      | none => simp
      | some v => simpa using h3 v hc

/-- C8: every row a run appends has each flag value `0` or `1` (given the
classifier boundary contract that successful outputs satisfy the declared
schema), a string justification for each flag, and empty `_manual`
fields. -/
theorem c8_row_field_ranges
    (oracle : String → Option ClassifierOutput)
    (hval : ∀ s out, oracle s = some out → SchemaValid out)
    (input output : Option CsvFile) (file : CsvFile) (rows : List Row)
    (hrun : annotate_file oracle input output = .done file rows) :
    ∀ row ∈ rows,
      (row.coordination = 0 ∨ row.coordination = 1) ∧
      (row.optimal_move = 0 ∨ row.optimal_move = 1) ∧
      (row.convergence = 0 ∨ row.convergence = 1) ∧
      row.coordination_justification_annotated_manual = "" ∧
      row.optimal_move_justification_annotated_manual = "" ∧
      row.convergence_justification_annotated_manual = "" := by
  cases input with
  | none => simp [annotate_file] at hrun
  | some inFile =>
    obtain ⟨records, doneIds, content, _, _, hrows, _⟩ :=
      annotate_file_done_inv oracle inFile output file rows hrun
    intro row hrow
    rw [hrows, newRows] at hrow
    rcases List.mem_map.1 hrow with ⟨task, _, htask⟩
    obtain ⟨hc, ho, hv⟩ := score_one_flags oracle hval task
    rw [← htask]
    exact ⟨hc, ho, hv, rfl, rfl, rfl⟩

theorem c8_row_field_ranges_witness :
    ((score_one okOracle ⟨"A", 1, "t1"⟩).coordination = 0 ∨
      (score_one okOracle ⟨"A", 1, "t1"⟩).coordination = 1) ∧
    ((score_one okOracle ⟨"A", 1, "t1"⟩).optimal_move = 0 ∨
      (score_one okOracle ⟨"A", 1, "t1"⟩).optimal_move = 1) ∧
    ((score_one okOracle ⟨"A", 1, "t1"⟩).convergence = 0 ∨
      (score_one okOracle ⟨"A", 1, "t1"⟩).convergence = 1) ∧
    (score_one okOracle ⟨"A", 1, "t1"⟩).coordination_justification_annotated_manual = "" ∧
    (score_one okOracle ⟨"A", 1, "t1"⟩).optimal_move_justification_annotated_manual = "" ∧
    (score_one okOracle ⟨"A", 1, "t1"⟩).convergence_justification_annotated_manual = "" := by
  have hval : ∀ s out, okOracle s = some out → SchemaValid out := by
    intro s out h
    rw [okOracle] at h
    have hout := (Option.some.inj h).symm
    subst hout
    refine ⟨?_, ?_, ?_⟩ <;> (intro v hv; right; exact (Option.some.inj hv).symm)
  have h := c8_row_field_ranges okOracle hval (some sampleInput) none
    (RunOutcome.fileOf (annotate_file okOracle (some sampleInput) none))
    (RunOutcome.appendedOf (annotate_file okOracle (some sampleInput) none))
    (by rfl)
  exact h (score_one okOracle ⟨"A", 1, "t1"⟩) (by decide)

/-! ### Result ordering and determinism -/

/-- C9: `pool.map(score_one, tasks)` yields results in task-submission
order, so the rows a run appends are exactly the pending records of the
source, scored in source order, and both the appended row list and the
resulting file are functions of the source records, the prior done-set,
and the per-item classifier outputs. -/
theorem c9_submission_order
    (oracle : String → Option ClassifierOutput)
    (input : CsvFile) (records : List RawRecord)
    (hin : read_input input = .ok records)
    (content : CsvFile) (doneIds : List Identity)
    (hout : read_output content = .ok doneIds)
    (file : CsvFile) (rows : List Row)
    (hrun : annotate_file oracle (some input) (some content) = .done file rows) :
    rows = (pendingTasks records doneIds).map (score_one oracle) ∧
    file = content ++ headerLinesFor doneIds ++ rows.map Row.toLine ∧
    rows.map Row.identity = (pendingTasks records doneIds).map RawRecord.identity := by
  obtain ⟨records', doneIds', content', hin', hcase, hrows, hfile⟩ :=
    annotate_file_done_inv oracle input (some content) file rows hrun
  have hrec : records' = records := by
    rw [hin] at hin'
    exact (Except.ok.inj hin').symm
  rw [hrec] at hrows
  rcases hcase with ⟨hst, _, _⟩ | ⟨hst, hout'⟩
  · simp at hst
  · have hc : content' = content := (Option.some.inj hst).symm
    rw [hc, hout] at hout'
    have hd : doneIds' = doneIds := (Except.ok.inj hout').symm
    rw [hd] at hrows
    rw [hc, hd] at hfile
    refine ⟨hrows, hfile, ?_⟩
    rw [hrows]
    exact map_identity_newRows oracle records doneIds

theorem c9_submission_order_witness :
    RunOutcome.appendedOf
      (annotate_file okOracle (some sampleInput) (some mismatchedStore)) =
      (pendingTasks sampleRecords [("A", 1)]).map (score_one okOracle) ∧
    RunOutcome.fileOf
      (annotate_file okOracle (some sampleInput) (some mismatchedStore)) =
      mismatchedStore ++ headerLinesFor [("A", 1)] ++
        (RunOutcome.appendedOf (annotate_file okOracle (some sampleInput)
          (some mismatchedStore))).map Row.toLine ∧
    (RunOutcome.appendedOf (annotate_file okOracle (some sampleInput)
      (some mismatchedStore))).map Row.identity =
      (pendingTasks sampleRecords [("A", 1)]).map RawRecord.identity :=
  c9_submission_order okOracle sampleInput sampleRecords (by rfl)
    mismatchedStore [("A", 1)] (by rfl)
    (RunOutcome.fileOf
      (annotate_file okOracle (some sampleInput) (some mismatchedStore)))
    (RunOutcome.appendedOf
      (annotate_file okOracle (some sampleInput) (some mismatchedStore)))
    (by rfl)

/-! ### The skip decision depends only on identity -/

theorem pendingTasks_cons (r : RawRecord) (rs : List RawRecord)
    (doneIds : List Identity) :
    pendingTasks (r :: rs) doneIds =
      if r.identity ∈ doneIds then pendingTasks rs doneIds
      else r :: pendingTasks rs doneIds := by
  rw [pendingTasks, List.filter_cons, pendingTasks]
  by_cases h : r.identity ∈ doneIds
  · simp [h]
  · simp [h]

/-- C10: for two sources that agree on the identity sequence and agree
fully on every record whose identity is not in the done-set (records whose
identity is already done may carry different text), the run dispatches
exactly the same tasks and produces identical outcomes: an already-done
record is never reclassified even when its text changed. -/
theorem c10_skip_depends_only_on_identity
    (oracle : String → Option ClassifierOutput)
    (input1 input2 : CsvFile) (records1 records2 : List RawRecord)
    (h1 : read_input input1 = .ok records1)
    (h2 : read_input input2 = .ok records2)
    (content : CsvFile) (doneIds : List Identity)
    (hout : read_output content = .ok doneIds)
    (hrel : List.Forall₂ (fun a b => a.identity = b.identity ∧
      (a.identity ∉ doneIds → a = b)) records1 records2) :
    pendingTasks records1 doneIds = pendingTasks records2 doneIds ∧
    annotate_file oracle (some input1) (some content) =
      annotate_file oracle (some input2) (some content) := by
  have hpend : pendingTasks records1 doneIds = pendingTasks records2 doneIds := by
    clear h1 h2
    induction hrel with
    | nil => rfl
    | @cons a b l1 l2 hab hrest ih =>
      rw [pendingTasks_cons, pendingTasks_cons]
      by_cases hmem : a.identity ∈ doneIds
      · rw [if_pos hmem, if_pos (hab.1 ▸ hmem)]
        exact ih
      · rw [if_neg hmem, if_neg (hab.1 ▸ hmem), hab.2 hmem, ih]
  refine ⟨hpend, ?_⟩
  simp only [annotate_file, h1, h2, hout, newRows, hpend]

theorem c10_skip_depends_only_on_identity_witness :
    pendingTasks sampleRecords [("A", 1)] =
      pendingTasks sampleRecordsAltText [("A", 1)] ∧
    annotate_file okOracle (some sampleInput) (some mismatchedStore) =
      annotate_file okOracle (some sampleInputAltText) (some mismatchedStore) := by
  refine c10_skip_depends_only_on_identity okOracle sampleInput
    sampleInputAltText sampleRecords sampleRecordsAltText (by rfl) (by rfl)
    mismatchedStore [("A", 1)] (by rfl) ?_
  refine List.Forall₂.cons ⟨rfl, ?_⟩ ?_
  · intro hni
    exact absurd (by decide) hni
  · refine List.Forall₂.cons ⟨rfl, fun _ => rfl⟩ ?_
    exact List.Forall₂.cons ⟨rfl, fun _ => rfl⟩ List.Forall₂.nil
